import Mathlib

/-!
Windows-Service: the service lifecycle of `Source.cpp`.

A shallow embedding of `Source.cpp`.  The file-scope globals, the `static`
check-point counter of `ReportStatus`, the kernel state of the stop event and
the calls made to the service manager and to the event log are gathered in one
`State` record; every function of the source is a function on that record.

`ServiceMain` runs on its own thread while the service manager calls
`ControlHandler` on another, with no lock between them.  The embedding cuts
`ServiceMain` at each of its calls (`ServiceMain_step`) and `ControlHandler` at
each of its statements, the reading of the argument of its second
`ReportStatus` call apart from the call (`ControlHandler_step`); a run (`exec`)
is any interleaving of the two.  A call of `ReportStatus` is one step.
-/

namespace WindowsService

/-! ## Win32 types and constants -/

/-- A 32-bit unsigned value; arithmetic on it is reduced modulo `2 ^ 32`. -/
abbrev DWORD := Nat

/-- A 16-bit unsigned value. -/
abbrev WORD := Nat

/-- The number of values of a `DWORD`. -/
abbrev DWORD_RANGE : Nat := 4294967296

/-- Value of `SERVICE_STOPPED` in `winsvc.h`. -/
abbrev SERVICE_STOPPED : DWORD := 1
/-- Value of `SERVICE_START_PENDING` in `winsvc.h`. -/
abbrev SERVICE_START_PENDING : DWORD := 2
/-- Value of `SERVICE_STOP_PENDING` in `winsvc.h`. -/
abbrev SERVICE_STOP_PENDING : DWORD := 3
/-- Value of `SERVICE_RUNNING` in `winsvc.h`. -/
abbrev SERVICE_RUNNING : DWORD := 4
/-- Value of `SERVICE_ACCEPT_STOP` in `winsvc.h`. -/
abbrev SERVICE_ACCEPT_STOP : DWORD := 1
/-- Value of `SERVICE_CONTROL_STOP` in `winsvc.h`. -/
abbrev SERVICE_CONTROL_STOP : DWORD := 1
/-- Value of `SERVICE_CONTROL_INTERROGATE` in `winsvc.h`. -/
abbrev SERVICE_CONTROL_INTERROGATE : DWORD := 4
/-- Value of `SERVICE_WIN32_OWN_PROCESS` in `winnt.h`. -/
abbrev SERVICE_WIN32_OWN_PROCESS : DWORD := 16
/-- Value of `NO_ERROR` in `winerror.h`. -/
abbrev NO_ERROR : DWORD := 0
/-- Value of `EVENTLOG_ERROR_TYPE` in `winnt.h`. -/
abbrev EVENTLOG_ERROR_TYPE : WORD := 1
/-- Value of `EVENTLOG_INFORMATION_TYPE` in `winnt.h`. -/
abbrev EVENTLOG_INFORMATION_TYPE : WORD := 4

/-- A Win32 handle: the null handle, the invalid-handle sentinel, or a handle
to a live object. -/
inductive HANDLE where
  | NULL
  | INVALID_HANDLE_VALUE
  | object (id : Nat)
  deriving DecidableEq, Repr

/-- What a handle-returning Win32 call gives back: `none` is a failed call
(the source sees `NULL`), `some id` a handle to a new object. -/
def HANDLE.ofResult : Option Nat → HANDLE
  | none => HANDLE.NULL
  | some id => HANDLE.object id

/-- The `SERVICE_STATUS` record of `winsvc.h`. -/
structure SERVICE_STATUS where
  dwServiceType : DWORD
  dwCurrentState : DWORD
  dwControlsAccepted : DWORD
  dwWin32ExitCode : DWORD
  dwServiceSpecificExitCode : DWORD
  dwCheckPoint : DWORD
  dwWaitHint : DWORD
  deriving DecidableEq, Repr

/-- A call made to the host: a status handed to the service manager through
`SetServiceStatus`, or a message handed to the event log through
`ReportEvent`. -/
inductive ApiCall where
  | SetServiceStatus (hServiceStatus : HANDLE) (status : SERVICE_STATUS)
  | ReportEvent (hEventLog : HANDLE) (wType : WORD) (message : String)
  deriving DecidableEq, Repr

/-- The places where `ServiceMain` can stand: before each of its calls, and
after its return. -/
inductive ControlPoint where
  | atRegister
  | atReportStartPending
  | atInitService
  | atInitFailedEvent
  | atInitFailedStopped
  | atInitializedEvent
  | atReportRunning
  | atWorkerLoop
  | atStoppedEvent
  | atReportStopped
  | returned
  deriving DecidableEq, Repr

/-- The places where a call of `ControlHandler` for a stop request can stand:
not in a call, before the stop-pending report, before `SetEvent`, before the
reading of `g_ServiceStatus.dwCurrentState` for the second report, and before
the second report, with the state that was read. -/
inductive HandlerPoint where
  | idle
  | atReportStopPending
  | atSetEvent
  | atReadState
  | atReportEcho (currentState : DWORD)
  deriving DecidableEq, Repr

/-- The state of the service process: the four globals of the source, the
`static` counter of `ReportStatus`, whether the event object behind
`g_ServiceStopEvent` is signalled, where `ServiceMain` stands, where the
handler thread stands, and the calls made to the host so far, oldest first. -/
structure State where
  g_ServiceStatus : SERVICE_STATUS
  g_StatusHandle : HANDLE
  g_ServiceStopEvent : HANDLE
  g_EventSource : HANDLE
  checkPoint : DWORD
  stopEventSignaled : Bool
  pc : ControlPoint
  handler : HandlerPoint
  log : List ApiCall
  deriving DecidableEq, Repr

/-- The results of the two fallible host calls of a service run:
`RegisterServiceCtrlHandler` and `CreateEvent`. -/
structure Host where
  RegisterServiceCtrlHandler : Option Nat
  CreateEvent : Option Nat
  deriving DecidableEq, Repr

/-- The globals as the source declares them, with the event source that
`_tmain` registered before the dispatcher calls `ServiceMain`. -/
def serviceStart (eventSource : Nat) : State where
  g_ServiceStatus := ⟨0, 0, 0, 0, 0, 0, 0⟩
  g_StatusHandle := HANDLE.NULL
  g_ServiceStopEvent := HANDLE.INVALID_HANDLE_VALUE
  g_EventSource := HANDLE.object eventSource
  checkPoint := 1
  stopEventSignaled := false
  pc := ControlPoint.atRegister
  handler := HandlerPoint.idle
  log := []

/-! ## The functions of the source -/

/-- The source's `ReportStatus`: fills the global status, takes the check
point from the static counter for every state but `SERVICE_RUNNING` and
`SERVICE_STOPPED`, and hands the status to the service manager. -/
def ReportStatus (currentState win32ExitCode waitHint : DWORD) (s : State) : State :=
  let controls : DWORD :=
    if currentState = SERVICE_START_PENDING then 0 else SERVICE_ACCEPT_STOP
  let steady : Bool :=
    decide (currentState = SERVICE_RUNNING) || decide (currentState = SERVICE_STOPPED)
  let status : SERVICE_STATUS :=
    { s.g_ServiceStatus with
      dwCurrentState := currentState
      dwWin32ExitCode := win32ExitCode
      dwWaitHint := waitHint
      dwControlsAccepted := controls
      dwCheckPoint := if steady then 0 else s.checkPoint }
  { s with
    g_ServiceStatus := status
    checkPoint := if steady then s.checkPoint else (s.checkPoint + 1) % DWORD_RANGE
    log := s.log ++ [ApiCall.SetServiceStatus s.g_StatusHandle status] }

/-- The source's `ReportEventToEventViewer`. -/
def ReportEventToEventViewer (message : String) (eventType : WORD) (s : State) : State :=
  { s with log := s.log ++ [ApiCall.ReportEvent s.g_EventSource eventType message] }

/-- Win32 `SetEvent` on the stop event: signals the object when the handle
names one, and fails without effect on `NULL` or `INVALID_HANDLE_VALUE`. -/
def SetEvent (s : State) : State :=
  match s.g_ServiceStopEvent with
  | HANDLE.object _ => { s with stopEventSignaled := true }
  | _ => s

/-- Whether `WaitForSingleObject (g_ServiceStopEvent, 0)` gives
`WAIT_OBJECT_0`: the handle names an event object and it is signalled. -/
def stopSignaled (s : State) : Bool :=
  match s.g_ServiceStopEvent with
  | HANDLE.object _ => s.stopEventSignaled
  | _ => false

/-- The source's `InitService`: creates the manual-reset stop event, initially
not signalled, and returns `-1` when the creation failed, `0` otherwise. -/
def InitService (host : Host) (s : State) : Int × State :=
  let s1 : State :=
    { s with
      g_ServiceStopEvent := HANDLE.ofResult host.CreateEvent
      stopEventSignaled := false }
  if s1.g_ServiceStopEvent = HANDLE.NULL then (-1, s1) else (0, s1)

/-- The source's `ControlHandler`, run from its entry to its return with no
statement of `ServiceMain` in between. -/
def ControlHandler (request : DWORD) (s : State) : State :=
  if request = SERVICE_CONTROL_STOP then
    let s1 := ReportStatus SERVICE_STOP_PENDING NO_ERROR 0 s
    let s2 := SetEvent s1
    ReportStatus s2.g_ServiceStatus.dwCurrentState NO_ERROR 0 s2
  else if request = SERVICE_CONTROL_INTERROGATE then
    s
  else
    s

/-- The entry of the source's `ControlHandler`: the `switch` sends a stop
request to the stop-pending report and returns at once for every other
request. -/
def ControlHandler_enter (request : DWORD) (s : State) : State :=
  if request = SERVICE_CONTROL_STOP then
    { s with handler := HandlerPoint.atReportStopPending }
  else if request = SERVICE_CONTROL_INTERROGATE then
    s
  else
    s

/-- One statement of the stop case of the source's `ControlHandler`, from the
place where the call stands to the next one. -/
def ControlHandler_step (s : State) : State :=
  match s.handler with
  | HandlerPoint.idle => s
  | HandlerPoint.atReportStopPending =>
    { ReportStatus SERVICE_STOP_PENDING NO_ERROR 0 s with handler := HandlerPoint.atSetEvent }
  | HandlerPoint.atSetEvent =>
    { SetEvent s with handler := HandlerPoint.atReadState }
  | HandlerPoint.atReadState =>
    { s with handler := HandlerPoint.atReportEcho s.g_ServiceStatus.dwCurrentState }
  | HandlerPoint.atReportEcho currentState =>
    { ReportStatus currentState NO_ERROR 0 s with handler := HandlerPoint.idle }

/-- One call of the source's `ServiceMain`, from the control point where it
stands to the next one.  A pass through the worker loop that finds the stop
event not signalled sleeps and stays at the loop. -/
def ServiceMain_step (host : Host) (s : State) : State :=
  match s.pc with
  | ControlPoint.atRegister =>
    let s1 : State := { s with g_StatusHandle := HANDLE.ofResult host.RegisterServiceCtrlHandler }
    if s1.g_StatusHandle = HANDLE.NULL then
      { ReportEventToEventViewer "Service control handler registration failed."
          EVENTLOG_ERROR_TYPE s1 with pc := ControlPoint.returned }
    else
      { s1 with
        g_ServiceStatus :=
          { s1.g_ServiceStatus with
            dwServiceType := SERVICE_WIN32_OWN_PROCESS
            dwServiceSpecificExitCode := 0 }
        pc := ControlPoint.atReportStartPending }
  | ControlPoint.atReportStartPending =>
    { ReportStatus SERVICE_START_PENDING NO_ERROR 3000 s with pc := ControlPoint.atInitService }
  | ControlPoint.atInitService =>
    let r := InitService host s
    if r.1 ≠ 0 then { r.2 with pc := ControlPoint.atInitFailedEvent }
    else { r.2 with pc := ControlPoint.atInitializedEvent }
  | ControlPoint.atInitFailedEvent =>
    { ReportEventToEventViewer "Service initialization failed." EVENTLOG_ERROR_TYPE s with
      pc := ControlPoint.atInitFailedStopped }
  | ControlPoint.atInitFailedStopped =>
    { ReportStatus SERVICE_STOPPED NO_ERROR 0 s with pc := ControlPoint.returned }
  | ControlPoint.atInitializedEvent =>
    { ReportEventToEventViewer "Service initialized successfully." EVENTLOG_INFORMATION_TYPE s with
      pc := ControlPoint.atReportRunning }
  | ControlPoint.atReportRunning =>
    { ReportStatus SERVICE_RUNNING NO_ERROR 0 s with pc := ControlPoint.atWorkerLoop }
  | ControlPoint.atWorkerLoop =>
    if stopSignaled s then { s with pc := ControlPoint.atStoppedEvent } else s
  | ControlPoint.atStoppedEvent =>
    { ReportEventToEventViewer "Service stopped." EVENTLOG_INFORMATION_TYPE s with
      pc := ControlPoint.atReportStopped }
  | ControlPoint.atReportStopped =>
    { ReportStatus SERVICE_STOPPED NO_ERROR 0 s with pc := ControlPoint.returned }
  | ControlPoint.returned => s

/-! ## Runs of the service -/

/-- What happens next in the service process: `ServiceMain` makes its next
call, the service manager calls `ControlHandler` with a request, or the
handler thread runs the next statement of the call it is in. -/
inductive Action where
  | main
  | control (request : DWORD)
  | handler
  deriving DecidableEq, Repr

/-- The effect of one action.  The service manager sends one request at a
time: a request that comes while a call of the handler is in progress is held
back. -/
def step (host : Host) (a : Action) (s : State) : State :=
  match a with
  | Action.main => ServiceMain_step host s
  | Action.control request =>
    if s.handler = HandlerPoint.idle then ControlHandler_enter request s else s
  | Action.handler => ControlHandler_step s

/-- A whole call of `ControlHandler` for a stop request, with no statement of
`ServiceMain` in between: the entry and the four steps of the stop case. -/
def stopCall : List Action :=
  [Action.control SERVICE_CONTROL_STOP, Action.handler, Action.handler, Action.handler,
    Action.handler]

/-- The effect of a sequence of actions, first action first. -/
def exec (host : Host) : List Action → State → State
  | [], s => s
  | a :: rest, s => exec host rest (step host a s)

/-- The statuses handed to the service manager, oldest first. -/
def published : List ApiCall → List SERVICE_STATUS
  | [] => []
  | ApiCall.SetServiceStatus _ status :: rest => status :: published rest
  | ApiCall.ReportEvent _ _ _ :: rest => published rest

/-- The states handed to the service manager, oldest first. -/
def publishedStates (log : List ApiCall) : List DWORD :=
  (published log).map (fun status => status.dwCurrentState)

/-- The pairs of state and check point handed to the service manager, oldest
first. -/
def publishedCheckPoints (log : List ApiCall) : List (DWORD × DWORD) :=
  (published log).map (fun status => (status.dwCurrentState, status.dwCheckPoint))

/-! ## The administrative commands -/

/-- The results of the host calls of the administrative commands and of the
entry point.  `ControlService` and `QueryServiceStatus` give the current state
they wrote to the caller's status record, or `none` when they failed;
`QueryServiceStatus k` is the result of the call number `k`.  `GetLastError` is
the error code of the failed call: no path of the source reads it twice. -/
structure Registry where
  GetModuleFileName : Bool
  OpenSCManager : Option Nat
  CreateService : Option Nat
  OpenService : Option Nat
  ControlService : Option DWORD
  QueryServiceStatus : Nat → Option DWORD
  DeleteService : Bool
  RegisterEventSource : Option Nat
  StartServiceCtrlDispatcher : Bool
  GetLastError : DWORD

/-- A `_tprintf` call: the format string and, when the format has a `%d`, the
value passed for it. -/
structure Print where
  format : String
  argument : Option DWORD
  deriving DecidableEq, Repr

/-- A `DWORD` returned through an `int`. -/
def DWORD.toInt (d : DWORD) : Int :=
  if d % DWORD_RANGE < 2147483648 then (d % DWORD_RANGE : Int)
  else (d % DWORD_RANGE : Int) - 4294967296

/-- The source's `InstallService`: the exit code and what it printed. -/
def InstallService (reg : Registry) : Int × List Print :=
  if !reg.GetModuleFileName then
    (-1, [⟨"GetModuleFileName failed, error: %d\n", some reg.GetLastError⟩])
  else if HANDLE.ofResult reg.OpenSCManager = HANDLE.NULL then
    (-1, [⟨"OpenSCManager failed, error: %d\n", some reg.GetLastError⟩])
  else if HANDLE.ofResult reg.CreateService = HANDLE.NULL then
    (-1, [⟨"CreateService failed, error: %d\n", some reg.GetLastError⟩])
  else
    (0, [⟨"Service installed successfully.\n", none⟩])

/-- The wait loop of `UninstallService`: queries the status until a query
fails or gives a state other than `SERVICE_STOP_PENDING`, printing a dot for
each stop-pending answer.  `k` numbers the query, `current` is the state held
in `ssSvcStatus`; the result is `none` when the fuel runs out. -/
def waitForStop (reg : Registry) : Nat → Nat → DWORD → List Print → Option (DWORD × List Print)
  | 0, _, _, _ => none
  | fuel + 1, k, current, out =>
    match reg.QueryServiceStatus k with
    | none => some (current, out)
    | some st =>
      if st = SERVICE_STOP_PENDING then waitForStop reg fuel (k + 1) st (out ++ [⟨".", none⟩])
      else some (st, out)

/-- The source's `UninstallService`: the exit code and what it printed, or
`none` when the wait loop outlives the fuel. -/
def UninstallService (reg : Registry) (fuel : Nat) : Option (Int × List Print) :=
  if HANDLE.ofResult reg.OpenSCManager = HANDLE.NULL then
    some (-1, [⟨"OpenSCManager failed, error: %d\n", some reg.GetLastError⟩])
  else if HANDLE.ofResult reg.OpenService = HANDLE.NULL then
    some (-1, [⟨"OpenService failed, error: %d\n", some reg.GetLastError⟩])
  else
    let stopped : Option (List Print) :=
      match reg.ControlService with
      | none => some []
      | some st0 =>
        match waitForStop reg fuel 0 st0 [⟨"Stopping service...\n", none⟩] with
        | none => none
        | some (st, out) =>
          if st = SERVICE_STOPPED then some (out ++ [⟨"\nService stopped successfully.\n", none⟩])
          else some (out ++ [⟨"\nService could not be stopped.\n", none⟩])
    match stopped with
    | none => none
    | some out =>
      if !reg.DeleteService then
        some (-1, out ++ [⟨"DeleteService failed, error: %d\n", some reg.GetLastError⟩])
      else
        some (0, out ++ [⟨"Service uninstalled successfully.\n", none⟩])

/-- The text printed by the source's `HelpPrompt`. -/
def helpText : String :=
  "To control this service, you can pass the program parameters\n" ++
  "given below in the command prompt with Admin Permissions.\n" ++
  "\n" ++
  "- To install the service: C:\\path\\to\\MyWindowsService.exe install\n" ++
  "  - Now, the service will run on boot automatically.\n" ++
  "- Start the service : C:\\path\\to\\MyWindowsService.exe start\n" ++
  "- Stop the service : C:\\path\\to\\MyWindowsService.exe stop\n" ++
  "- Uninstall the service : C:\\path\\to\\MyWindowsService.exe uninstall\n" ++
  "- Print this note section: C:\\path\\to\\MyWindowsService.exe help\n" ++
  "\n" ++
  "OR you can use the sc commands given below in the command prompt.\n" ++
  "\n" ++
  "- Install the service :\n" ++
  "sc create \"My Service\" binPath = \"C:\\path\\to\\YourService.exe\"\n" ++
  "- Uninstall the service : sc delete \"My Service\"\n" ++
  "- Start the service : sc start \"My Service\"\n" ++
  "- Stop the service : sc stop \"My Service\"\n"

/-- The source's `HelpPrompt`. -/
def HelpPrompt : Int × List Print :=
  (0, [⟨helpText, none⟩])

/-- The source's `_tmain` on the argument vector `argv` (the program path
first): the exit code and what it printed.  Without a command it registers the
event source and hands the process to the service dispatcher, whose calls of
`ServiceMain` and `ControlHandler` are the runs of `exec`. -/
def _tmain (reg : Registry) (fuel : Nat) (argv : List String) : Option (Int × List Print) :=
  if argv.length > 1 then
    let command := argv.getD 1 ""
    if command = "install" then some (InstallService reg)
    else if command = "uninstall" then UninstallService reg fuel
    else if command = "help" then some HelpPrompt
    else some (-1, [⟨"Invalid command.\n", none⟩])
  else if HANDLE.ofResult reg.RegisterEventSource = HANDLE.NULL then
    some (-1, [⟨"Failed to register the event source. Error: %d\n", some reg.GetLastError⟩])
  else if !reg.StartServiceCtrlDispatcher then
    some (DWORD.toInt reg.GetLastError, [])
  else
    some (0, [])

/-! ## Predicates on runs -/

/-- The lifecycle order of the states of a service. -/
def lifecycle : List DWORD :=
  [SERVICE_START_PENDING, SERVICE_RUNNING, SERVICE_STOP_PENDING, SERVICE_STOPPED]

/-- The place of a state in the lifecycle order (`4` for any other value). -/
def lifecycleRank (st : DWORD) : Nat :=
  lifecycle.indexOf st

/-- The place of a state in the lifecycle order, with stop-pending and stopped
at the same place. -/
def startRank (st : DWORD) : Nat :=
  min (lifecycleRank st) 2

/-- A sequence of published states follows the lifecycle: every state is one
of the four, and no state comes after a state that is later in the order. -/
def FollowsLifecycle (states : List DWORD) : Prop :=
  (∀ st ∈ states, st ∈ lifecycle) ∧
    states.Pairwise (fun earlier later => lifecycleRank earlier ≤ lifecycleRank later)

/-- A sequence of published states starts in order: every state is one of the
four, start-pending comes after start-pending only, and running comes after
start-pending and running only; stop-pending and stopped may come in any order
after them. -/
def StartsInOrder (states : List DWORD) : Prop :=
  (∀ st ∈ states, st ∈ lifecycle) ∧
    states.Pairwise (fun earlier later => startRank earlier ≤ startRank later)

/-- The state is one of the two pending states of the service. -/
def isPending (st : DWORD) : Prop :=
  st = SERVICE_START_PENDING ∨ st = SERVICE_STOP_PENDING

/-- The handler is registered and `ServiceMain` has not returned: the service
manager can call `ControlHandler`. -/
def handlerLive (s : State) : Bool :=
  decide (s.pc ≠ ControlPoint.atRegister) && decide (s.pc ≠ ControlPoint.returned)

/-- The last status handed to the service manager, if any. -/
def lastPublished (s : State) : Option SERVICE_STATUS :=
  (published s.log).getLast?

/-- The last of the statuses accepts the stop control; with no status at all,
the service manager accepts no control. -/
def acceptsStop (statuses : List SERVICE_STATUS) : Bool :=
  match statuses.getLast? with
  | some status => decide (status.dwControlsAccepted = SERVICE_ACCEPT_STOP)
  | none => false

/-- Every control request of the run arrives while the handler is live and no
call of the handler is in progress. -/
def deliveredDuringRun (host : Host) : List Action → State → Bool
  | [], _ => true
  | Action.control request :: rest, s =>
    handlerLive s && decide (s.handler = HandlerPoint.idle) &&
      deliveredDuringRun host rest (step host (Action.control request) s)
  | a :: rest, s => deliveredDuringRun host rest (step host a s)

/-- Every control request of the run arrives while the handler is live and no
call of the handler is in progress, and every stop request while the last
published status accepts the stop control. -/
def deliveredWhenAccepted (host : Host) : List Action → State → Bool
  | [], _ => true
  | Action.control request :: rest, s =>
    handlerLive s && decide (s.handler = HandlerPoint.idle) &&
      (decide (request ≠ SERVICE_CONTROL_STOP) || acceptsStop (published s.log)) &&
      deliveredWhenAccepted host rest (step host (Action.control request) s)
  | a :: rest, s => deliveredWhenAccepted host rest (step host a s)

/-- No statement of the handler runs after `ServiceMain` has returned: every
call of the handler is over when `ServiceMain` makes its stopped report. -/
def handlerBeforeReturn (host : Host) : List Action → State → Bool
  | [], _ => true
  | Action.handler :: rest, s =>
    (decide (s.handler = HandlerPoint.idle) || decide (s.pc ≠ ControlPoint.returned)) &&
      handlerBeforeReturn host rest (step host Action.handler s)
  | a :: rest, s => handlerBeforeReturn host rest (step host a s)

/-- The service is past its call of `InitService`. -/
def pastInitService (pc : ControlPoint) : Bool :=
  match pc with
  | ControlPoint.atRegister => false
  | ControlPoint.atReportStartPending => false
  | ControlPoint.atInitService => false
  | _ => true

/-- The service has published `SERVICE_RUNNING`, or has returned. -/
def pastRunning (pc : ControlPoint) : Bool :=
  match pc with
  | ControlPoint.atWorkerLoop => true
  | ControlPoint.atStoppedEvent => true
  | ControlPoint.atReportStopped => true
  | ControlPoint.returned => true
  | _ => false

/-- The rank used for a run: the lifecycle rank when no statement of the
handler runs after the return of `ServiceMain`, the start rank otherwise. -/
def rankOf (strict : Bool) (st : DWORD) : Nat :=
  if strict then lifecycleRank st else startRank st

/-- The highest rank that can have been published when `ServiceMain` stands at
the control point. -/
def rankBound (strict : Bool) (pc : ControlPoint) : Nat :=
  match pc with
  | ControlPoint.atWorkerLoop => 2
  | ControlPoint.atStoppedEvent => 2
  | ControlPoint.atReportStopped => 2
  | ControlPoint.returned => rankOf strict SERVICE_STOPPED
  | _ => 0

/-- A sequence of `ReportStatus` calls, each given by its three arguments. -/
def reportAll : List (DWORD × DWORD × DWORD) → State → State
  | [], s => s
  | (currentState, win32ExitCode, waitHint) :: rest, s =>
    reportAll rest (ReportStatus currentState win32ExitCode waitHint s)

/-! ## Sample hosts, sample runs and the vocabulary of the proofs -/

/-- A host on which the registration of the handler and the creation of the
stop event both succeed. -/
def okHost : Host := ⟨some 1, some 2⟩

/-- The state of a run on `okHost` once `SERVICE_RUNNING` is published and the
worker loop is entered. -/
def runningState : State :=
  exec okHost (List.replicate 5 Action.main) (serviceStart 0)

/-- A run with one stop request in which `ServiceMain` leaves the worker loop
and logs its last event while the call of the handler is between `SetEvent`
and the reading of the current state. -/
def stopInterleaved : List Action :=
  List.replicate 6 Action.main ++
    [Action.control SERVICE_CONTROL_INTERROGATE, Action.control SERVICE_CONTROL_STOP,
      Action.main, Action.handler, Action.handler, Action.main, Action.main, Action.handler,
      Action.handler, Action.main, Action.main]

/-- The statuses that the step from `before` to `after` handed to the service
manager. -/
def newReports (before after : State) : List SERVICE_STATUS :=
  (published after.log).drop (published before.log).length

/-- The status that `ReportStatus` writes for `SERVICE_STOP_PENDING` with no
error and no wait hint when the counter stands at `checkPoint`. -/
def stopPendingStatus (old : SERVICE_STATUS) (checkPoint : DWORD) : SERVICE_STATUS :=
  { old with
    dwCurrentState := SERVICE_STOP_PENDING
    dwWin32ExitCode := NO_ERROR
    dwWaitHint := 0
    dwControlsAccepted := SERVICE_ACCEPT_STOP
    dwCheckPoint := checkPoint }

/-- The statuses that a sequence of `ReportStatus` calls writes, in order. -/
def reportsOf : List (DWORD × DWORD × DWORD) → State → List SERVICE_STATUS
  | [], _ => []
  | (currentState, win32ExitCode, waitHint) :: rest, s =>
    (ReportStatus currentState win32ExitCode waitHint s).g_ServiceStatus ::
      reportsOf rest (ReportStatus currentState win32ExitCode waitHint s)

/-- Between two consecutive reports in pending states the check point
grows. -/
def CheckPointGrows (earlier later : SERVICE_STATUS) : Prop :=
  isPending earlier.dwCurrentState → isPending later.dwCurrentState →
    earlier.dwCheckPoint < later.dwCheckPoint

/-- Between two consecutive reports in pending states the check point grows,
unless the earlier one is the last value of a `DWORD`. -/
def CheckPointGrowsBelowWrap (earlier later : SERVICE_STATUS) : Prop :=
  isPending earlier.dwCurrentState → isPending later.dwCurrentState →
    earlier.dwCheckPoint < 4294967295 → earlier.dwCheckPoint < later.dwCheckPoint

/-- The running state after one whole call of the handler for a stop request:
stop-pending, with the stop event signalled. -/
def stopPendingState : State :=
  exec okHost stopCall runningState

/-- A stop request that arrives between the start-pending report and the call
of `InitService`, in a run that then reaches the worker loop. -/
def stopBeforeRunning : List Action :=
  [Action.main, Action.main] ++ stopCall ++ [Action.main, Action.main, Action.main]

/-- A registry whose service takes the stop control, answers two queries with
`SERVICE_STOP_PENDING` and then is `SERVICE_RUNNING` again. -/
def stuckService : Registry where
  GetModuleFileName := true
  OpenSCManager := some 1
  CreateService := some 2
  OpenService := some 2
  ControlService := some SERVICE_STOP_PENDING
  QueryServiceStatus := fun k => if k < 2 then some SERVICE_STOP_PENDING else some SERVICE_RUNNING
  DeleteService := true
  RegisterEventSource := some 3
  StartServiceCtrlDispatcher := true
  GetLastError := 0

/-- A run with one stop request in which `ServiceMain` makes its stopped
report while the call of the handler stands between the reading of the current
state and its second report. -/
def stopEchoLate : List Action :=
  List.replicate 5 Action.main ++
    [Action.control SERVICE_CONTROL_STOP, Action.handler, Action.handler, Action.handler,
      Action.main, Action.main, Action.main, Action.handler]

/-- A second stop request whose call is interleaved with the last calls of
`ServiceMain` before its stopped report. -/
def secondStopInterleaved : List Action :=
  [Action.control SERVICE_CONTROL_STOP, Action.handler, Action.main, Action.handler,
    Action.handler, Action.main, Action.handler]

/-! ## The vocabulary of the invariants -/

/-- The published states are among the four, in the order of the rank, and
none is past the rank `b`. -/
def Bounded (rank : DWORD → Nat) (states : List DWORD) (b : Nat) : Prop :=
  (∀ st ∈ states, st ∈ lifecycle) ∧
    states.Pairwise (fun earlier later => rank earlier ≤ rank later) ∧
    ∀ st ∈ states, rank st ≤ b

/-- A state that a call of the handler may publish after `SERVICE_RUNNING`:
one of the four, of rank 2. -/
def EchoOk (strict : Bool) (st : DWORD) : Prop :=
  st ∈ lifecycle ∧ rankOf strict st = 2

/-- What holds at every point of a run whose stop requests arrive when
accepted: the published states are in the order of the rank, up to the rank
allowed at the place of `ServiceMain`; the stop control is accepted, and a
call of the handler is in progress, only once `SERVICE_RUNNING` is published;
and the state that the call of the handler is about to read or to publish has
rank 2. -/
structure Orderly (strict : Bool) (s : State) : Prop where
  bounded : Bounded (rankOf strict) (publishedStates s.log) (rankBound strict s.pc)
  accepted : acceptsStop (published s.log) = true → pastRunning s.pc = true
  busy : s.handler ≠ HandlerPoint.idle → pastRunning s.pc = true
  current : s.handler = HandlerPoint.atSetEvent ∨ s.handler = HandlerPoint.atReadState →
    s.pc ≠ ControlPoint.returned ∨ strict = false →
      EchoOk strict s.g_ServiceStatus.dwCurrentState
  echo : ∀ st, s.handler = HandlerPoint.atReportEcho st → EchoOk strict st

/-- The stop event exists and `InitService` will not run again. -/
def Created (s : State) : Prop :=
  (∃ event, s.g_ServiceStopEvent = HANDLE.object event) ∧ pastInitService s.pc = true

/-- The call of the handler has not yet reached the end of `SetEvent`. -/
def beforeSetEvent (h : HandlerPoint) : Prop :=
  h = HandlerPoint.atReportStopPending ∨ h = HandlerPoint.atSetEvent

/-- What holds once a stop request has arrived after the creation of the stop
event: the stop event exists, and it is signalled unless the call of the
handler has not yet reached the end of `SetEvent`. -/
def Armed (s : State) : Prop :=
  Created s ∧ (beforeSetEvent s.handler ∨ s.stopEventSignaled = true)

/-- The stop event exists, `InitService` will not run again, and the event is
signalled. -/
def Signaled (s : State) : Prop :=
  Created s ∧ s.stopEventSignaled = true

/-- What holds while a second stop request is handled, from its arrival at
`s1` to the return of the handler, as long as `ServiceMain` has not returned:
the published statuses, the counter and the status record are those of `s1`
with the reports that the call has made so far. -/
def SecondStop (s1 s : State) : Prop :=
  s.pc = ControlPoint.returned ∨
  (pastRunning s.pc = true ∧ s.g_ServiceStopEvent = s1.g_ServiceStopEvent ∧
    match s.handler with
    | HandlerPoint.atReportStopPending =>
      published s.log = published s1.log ∧ s.checkPoint = s1.checkPoint ∧
        s.g_ServiceStatus = s1.g_ServiceStatus
    | HandlerPoint.atSetEvent =>
      published s.log = published s1.log ++ [stopPendingStatus s1.g_ServiceStatus s1.checkPoint] ∧
        s.checkPoint = (s1.checkPoint + 1) % DWORD_RANGE ∧
        s.g_ServiceStatus = stopPendingStatus s1.g_ServiceStatus s1.checkPoint
    | HandlerPoint.atReadState =>
      published s.log = published s1.log ++ [stopPendingStatus s1.g_ServiceStatus s1.checkPoint] ∧
        s.checkPoint = (s1.checkPoint + 1) % DWORD_RANGE ∧
        s.g_ServiceStatus = stopPendingStatus s1.g_ServiceStatus s1.checkPoint ∧
        s.stopEventSignaled = true
    | HandlerPoint.atReportEcho currentState =>
      published s.log = published s1.log ++ [stopPendingStatus s1.g_ServiceStatus s1.checkPoint] ∧
        s.checkPoint = (s1.checkPoint + 1) % DWORD_RANGE ∧
        s.g_ServiceStatus = stopPendingStatus s1.g_ServiceStatus s1.checkPoint ∧
        s.stopEventSignaled = true ∧ currentState = SERVICE_STOP_PENDING
    | HandlerPoint.idle =>
      published s.log = published s1.log ++
          [stopPendingStatus s1.g_ServiceStatus s1.checkPoint,
            stopPendingStatus s1.g_ServiceStatus ((s1.checkPoint + 1) % DWORD_RANGE)] ∧
        s.g_ServiceStatus =
          stopPendingStatus s1.g_ServiceStatus ((s1.checkPoint + 1) % DWORD_RANGE) ∧
        s.stopEventSignaled = true)

/-! ## Lemmas -/

theorem exec_append (host : Host) (xs ys : List Action) (s : State) :
    exec host (xs ++ ys) s = exec host ys (exec host xs s) := by
  induction xs generalizing s with
  | nil => rfl
  | cons a rest ih => simp [exec, ih]

theorem published_append (xs ys : List ApiCall) :
    published (xs ++ ys) = published xs ++ published ys := by
  induction xs with
  | nil => rfl
  | cons a rest ih => cases a <;> simp [published, ih]

theorem exec_returned (host : Host) (n : Nat) (s : State)
    (hpc : s.pc = ControlPoint.returned) :
    exec host (List.replicate n Action.main) s = s := by
  induction n with
  | zero => rfl
  | succ n ih =>
    have hstep : ServiceMain_step host s = s := by
      simp [ServiceMain_step, hpc]
    simp [List.replicate_succ, exec, step, hstep, ih]

theorem ControlHandler_stop (s : State) :
    ControlHandler SERVICE_CONTROL_STOP s =
      { s with
        g_ServiceStatus := stopPendingStatus s.g_ServiceStatus ((s.checkPoint + 1) % DWORD_RANGE)
        checkPoint := ((s.checkPoint + 1) % DWORD_RANGE + 1) % DWORD_RANGE
        stopEventSignaled :=
          match s.g_ServiceStopEvent with
          | HANDLE.object _ => true
          | _ => s.stopEventSignaled
        log := s.log ++
          [ApiCall.SetServiceStatus s.g_StatusHandle
              (stopPendingStatus s.g_ServiceStatus s.checkPoint),
            ApiCall.SetServiceStatus s.g_StatusHandle
              (stopPendingStatus s.g_ServiceStatus ((s.checkPoint + 1) % DWORD_RANGE))] } := by
  cases h : s.g_ServiceStopEvent <;>
    simp [ControlHandler, SetEvent, ReportStatus, stopPendingStatus, h]

theorem exec_stopCall (host : Host) (s : State) (hidle : s.handler = HandlerPoint.idle) :
    exec host stopCall s = ControlHandler SERVICE_CONTROL_STOP s := by
  cases hev : s.g_ServiceStopEvent <;>
    simp [stopCall, exec, step, hidle, ControlHandler_enter, ControlHandler_step, ControlHandler,
      ReportStatus, SetEvent, hev]

theorem Bounded.mono {rank : DWORD → Nat} {states : List DWORD} {b c : Nat}
    (h : Bounded rank states b) (hbc : b ≤ c) : Bounded rank states c :=
  ⟨h.1, h.2.1, fun st hst => Nat.le_trans (h.2.2 st hst) hbc⟩

theorem Bounded.snoc {rank : DWORD → Nat} {states : List DWORD} {b : Nat}
    (h : Bounded rank states b) (st : DWORD)
    (hmem : st ∈ lifecycle) (hrank : b ≤ rank st) :
    Bounded rank (states ++ [st]) (rank st) := by
  obtain ⟨hall, hpair, hb⟩ := h
  refine ⟨?_, ?_, ?_⟩
  · intro x hx
    rcases List.mem_append.1 hx with hx | hx
    · exact hall x hx
    · rw [List.mem_singleton.1 hx]; exact hmem
  · rw [List.pairwise_append]
    refine ⟨hpair, List.pairwise_singleton _ _, ?_⟩
    intro x hx y hy
    rw [List.mem_singleton.1 hy]
    exact Nat.le_trans (hb x hx) hrank
  · intro x hx
    rcases List.mem_append.1 hx with hx | hx
    · exact Nat.le_trans (hb x hx) hrank
    · rw [List.mem_singleton.1 hx]

theorem EchoOk.stopPending (strict : Bool) : EchoOk strict SERVICE_STOP_PENDING := by
  cases strict <;> exact ⟨by decide, by decide⟩

theorem rankBound_ge_two (strict : Bool) {pc : ControlPoint} (h : pastRunning pc = true) :
    2 ≤ rankBound strict pc := by
  cases pc <;> cases strict <;> first | exact absurd h (by decide) | decide

theorem rankBound_le_two (strict : Bool) {pc : ControlPoint}
    (h : pc ≠ ControlPoint.returned ∨ strict = false) : rankBound strict pc ≤ 2 := by
  cases pc <;> cases strict <;> first | decide | (rcases h with h | h <;> simp at h)

theorem Orderly.start (strict : Bool) (eventSource : Nat) :
    Orderly strict (serviceStart eventSource) := by
  refine ⟨⟨?_, ?_, ?_⟩, ?_, ?_, ?_, ?_⟩ <;>
    simp [serviceStart, publishedStates, published, acceptsStop]

/-- A step that publishes nothing and leaves the handler and the current
state as they are. -/
theorem Orderly.keep {strict : Bool} {s t : State} (h : Orderly strict s)
    (hlog : published t.log = published s.log) (hhandler : t.handler = s.handler)
    (hcurrent : t.g_ServiceStatus.dwCurrentState = s.g_ServiceStatus.dwCurrentState)
    (hrank : rankBound strict s.pc ≤ rankBound strict t.pc)
    (hpast : pastRunning s.pc = true → pastRunning t.pc = true)
    (hreturned : s.pc = ControlPoint.returned → t.pc = ControlPoint.returned) :
    Orderly strict t := by
  refine ⟨?_, ?_, ?_, ?_, ?_⟩
  · unfold publishedStates; rw [hlog]; exact h.bounded.mono hrank
  · rw [hlog]; exact fun hacc => hpast (h.accepted hacc)
  · rw [hhandler]; exact fun hbusy => hpast (h.busy hbusy)
  · rw [hhandler, hcurrent]
    intro hat hor
    refine h.current hat ?_
    rcases hor with hne | hs
    · exact Or.inl (fun hret => hne (hreturned hret))
    · exact Or.inr hs
  · rw [hhandler]; exact h.echo

/-- A step of `ServiceMain` that publishes a status. -/
theorem Orderly.publish {strict : Bool} {s t : State} (h : Orderly strict s)
    (status : SERVICE_STATUS)
    (hlog : published t.log = published s.log ++ [status])
    (hmem : status.dwCurrentState ∈ lifecycle)
    (hlow : rankBound strict s.pc ≤ rankOf strict status.dwCurrentState)
    (hhigh : rankOf strict status.dwCurrentState ≤ rankBound strict t.pc)
    (hacc : status.dwControlsAccepted = SERVICE_ACCEPT_STOP → pastRunning t.pc = true)
    (hbusy : t.handler ≠ HandlerPoint.idle → pastRunning t.pc = true)
    (hcurrent : t.handler = HandlerPoint.atSetEvent ∨ t.handler = HandlerPoint.atReadState →
      t.pc ≠ ControlPoint.returned ∨ strict = false →
        EchoOk strict t.g_ServiceStatus.dwCurrentState)
    (hecho : ∀ st, t.handler = HandlerPoint.atReportEcho st → EchoOk strict st) :
    Orderly strict t := by
  refine ⟨?_, ?_, hbusy, hcurrent, hecho⟩
  · unfold publishedStates
    rw [hlog, List.map_append]
    exact (h.bounded.snoc status.dwCurrentState hmem hlow).mono hhigh
  · rw [hlog]
    intro haccepts
    apply hacc
    simpa [acceptsStop, List.getLast?_concat] using haccepts

theorem Orderly.after_main (strict : Bool) (host : Host) {s : State} (h : Orderly strict s) :
    Orderly strict (ServiceMain_step host s) := by
  have hidle : pastRunning s.pc = false → s.handler = HandlerPoint.idle := by
    intro hnot
    by_contra hbusy
    rw [h.busy hbusy] at hnot
    exact absurd hnot (by decide)
  cases hpc : s.pc
  case atRegister =>
    have hi := hidle (by rw [hpc]; rfl)
    cases hreg : host.RegisterServiceCtrlHandler with
    | none =>
      refine h.keep ?_ ?_ ?_ ?_ ?_ ?_ <;>
        simp [ServiceMain_step, hpc, hreg, HANDLE.ofResult, ReportEventToEventViewer,
          published_append, published, rankBound, pastRunning]
    | some handler =>
      refine h.keep ?_ ?_ ?_ ?_ ?_ ?_ <;>
        simp [ServiceMain_step, hpc, hreg, HANDLE.ofResult, rankBound, pastRunning]
  case atReportStartPending =>
    have hi := hidle (by rw [hpc]; rfl)
    refine h.publish (ReportStatus SERVICE_START_PENDING NO_ERROR 3000 s).g_ServiceStatus
      ?_ ?_ ?_ ?_ ?_ ?_ ?_ ?_ <;>
      cases strict <;>
        simp [ServiceMain_step, hpc, hi, ReportStatus, published_append, published, rankBound,
          pastRunning, lifecycle, rankOf, lifecycleRank, startRank]
  case atInitService =>
    cases hev : host.CreateEvent with
    | none =>
      refine h.keep ?_ ?_ ?_ ?_ ?_ ?_ <;>
        simp [ServiceMain_step, hpc, hev, InitService, HANDLE.ofResult, rankBound, pastRunning]
    | some event =>
      refine h.keep ?_ ?_ ?_ ?_ ?_ ?_ <;>
        simp [ServiceMain_step, hpc, hev, InitService, HANDLE.ofResult, rankBound, pastRunning]
  case atInitFailedEvent =>
    refine h.keep ?_ ?_ ?_ ?_ ?_ ?_ <;>
      simp [ServiceMain_step, hpc, ReportEventToEventViewer, published_append, published,
        rankBound, pastRunning]
  case atInitFailedStopped =>
    have hi := hidle (by rw [hpc]; rfl)
    refine h.publish (ReportStatus SERVICE_STOPPED NO_ERROR 0 s).g_ServiceStatus
      ?_ ?_ ?_ ?_ ?_ ?_ ?_ ?_ <;>
      simp [ServiceMain_step, hpc, hi, ReportStatus, published_append, published, rankBound,
        pastRunning, lifecycle]
  case atInitializedEvent =>
    refine h.keep ?_ ?_ ?_ ?_ ?_ ?_ <;>
      simp [ServiceMain_step, hpc, ReportEventToEventViewer, published_append, published,
        rankBound, pastRunning]
  case atReportRunning =>
    have hi := hidle (by rw [hpc]; rfl)
    refine h.publish (ReportStatus SERVICE_RUNNING NO_ERROR 0 s).g_ServiceStatus
      ?_ ?_ ?_ ?_ ?_ ?_ ?_ ?_ <;>
      cases strict <;>
        simp [ServiceMain_step, hpc, hi, ReportStatus, published_append, published,
          rankBound, pastRunning, lifecycle, rankOf, lifecycleRank, startRank]
  case atWorkerLoop =>
    cases hsig : stopSignaled s with
    | false =>
      have hsame : ServiceMain_step host s = s := by simp [ServiceMain_step, hpc, hsig]
      rw [hsame]; exact h
    | true =>
      refine h.keep ?_ ?_ ?_ ?_ ?_ ?_ <;>
        simp [ServiceMain_step, hpc, hsig, rankBound, pastRunning]
  case atStoppedEvent =>
    refine h.keep ?_ ?_ ?_ ?_ ?_ ?_ <;>
      simp [ServiceMain_step, hpc, ReportEventToEventViewer, published_append, published,
        rankBound, pastRunning]
  case atReportStopped =>
    have hecho := h.echo
    refine h.publish (ReportStatus SERVICE_STOPPED NO_ERROR 0 s).g_ServiceStatus
      ?_ ?_ ?_ ?_ ?_ ?_ ?_ ?_
    · simp [ServiceMain_step, hpc, ReportStatus, published_append, published]
    · simp [ReportStatus, lifecycle]
    · cases strict <;> simp [hpc, ReportStatus, rankBound, rankOf, lifecycleRank, startRank,
        lifecycle]
    · simp [ServiceMain_step, hpc, ReportStatus, rankBound]
    · simp [ServiceMain_step, hpc, pastRunning]
    · simp [ServiceMain_step, hpc, pastRunning]
    · intro _ hor
      have hs : strict = false := by
        rcases hor with hne | hs
        · exact absurd (by simp [ServiceMain_step, hpc]) hne
        · exact hs
      subst hs
      simp [ServiceMain_step, hpc, ReportStatus, EchoOk, lifecycle, rankOf, startRank,
        lifecycleRank]
    · intro st hst
      exact hecho st (by simpa [ServiceMain_step, hpc, ReportStatus] using hst)
  case returned =>
    have hsame : ServiceMain_step host s = s := by simp [ServiceMain_step, hpc]
    rw [hsame]; exact h

theorem Orderly.after_handler (strict : Bool) {s : State} (h : Orderly strict s)
    (hbefore : strict = true → s.handler = HandlerPoint.idle ∨ s.pc ≠ ControlPoint.returned) :
    Orderly strict (ControlHandler_step s) := by
  have hor : s.handler ≠ HandlerPoint.idle → s.pc ≠ ControlPoint.returned ∨ strict = false := by
    intro hbusy
    cases strict with
    | false => exact Or.inr rfl
    | true =>
      rcases hbefore rfl with hi | hne
      · exact absurd hi hbusy
      · exact Or.inl hne
  cases hh : s.handler with
  | idle =>
    have hsame : ControlHandler_step s = s := by simp [ControlHandler_step, hh]
    rw [hsame]; exact h
  | atReportStopPending =>
    have hbusy : s.handler ≠ HandlerPoint.idle := by simp [hh]
    have hpast := h.busy hbusy
    refine h.publish (ReportStatus SERVICE_STOP_PENDING NO_ERROR 0 s).g_ServiceStatus
      ?_ ?_ ?_ ?_ ?_ ?_ ?_ ?_
    · simp [ControlHandler_step, hh, ReportStatus, published_append, published]
    · simp [ReportStatus, lifecycle]
    · have h2 := rankBound_le_two strict (hor hbusy)
      have hr : rankOf strict SERVICE_STOP_PENDING = 2 := (EchoOk.stopPending strict).2
      simpa [ReportStatus, hr] using h2
    · have h2 := rankBound_ge_two strict hpast
      have hr : rankOf strict SERVICE_STOP_PENDING = 2 := (EchoOk.stopPending strict).2
      simpa [ControlHandler_step, hh, ReportStatus, hr] using h2
    · intro _; simpa [ControlHandler_step, hh, ReportStatus] using hpast
    · intro _; simpa [ControlHandler_step, hh, ReportStatus] using hpast
    · intro _ _
      simpa [ControlHandler_step, hh, ReportStatus] using EchoOk.stopPending strict
    · intro st hst
      simp [ControlHandler_step, hh] at hst
  | atSetEvent =>
    have hbusy : s.handler ≠ HandlerPoint.idle := by simp [hh]
    have hpast := h.busy hbusy
    have hcur := h.current (Or.inl hh)
    have hlog : (SetEvent s).log = s.log := by unfold SetEvent; split <;> rfl
    have hpc : (SetEvent s).pc = s.pc := by unfold SetEvent; split <;> rfl
    have hst : (SetEvent s).g_ServiceStatus = s.g_ServiceStatus := by
      unfold SetEvent; split <;> rfl
    refine ⟨?_, ?_, ?_, ?_, ?_⟩
    · simpa [ControlHandler_step, hh, hlog, hpc] using h.bounded
    · simpa [ControlHandler_step, hh, hlog, hpc] using h.accepted
    · intro _; simpa [ControlHandler_step, hh, hpc] using hpast
    · intro _ hor2
      simpa [ControlHandler_step, hh, hst] using
        hcur (by simpa [ControlHandler_step, hh, hpc] using hor2)
    · intro st hst2
      simp [ControlHandler_step, hh] at hst2
  | atReadState =>
    have hbusy : s.handler ≠ HandlerPoint.idle := by simp [hh]
    have hpast := h.busy hbusy
    have hcur := h.current (Or.inr hh) (hor hbusy)
    refine ⟨?_, ?_, ?_, ?_, ?_⟩
    · simpa [ControlHandler_step, hh] using h.bounded
    · simpa [ControlHandler_step, hh] using h.accepted
    · intro _; simpa [ControlHandler_step, hh] using hpast
    · intro hat
      simp [ControlHandler_step, hh] at hat
    · intro st hst
      simp only [ControlHandler_step, hh, HandlerPoint.atReportEcho.injEq] at hst
      rw [← hst]; exact hcur
  | atReportEcho st =>
    have hbusy : s.handler ≠ HandlerPoint.idle := by simp [hh]
    have hpast := h.busy hbusy
    obtain ⟨hmem, hr⟩ := h.echo st hh
    have hne : st ≠ SERVICE_START_PENDING := by
      rintro rfl
      cases strict <;> exact absurd hr (by decide)
    refine h.publish (ReportStatus st NO_ERROR 0 s).g_ServiceStatus ?_ ?_ ?_ ?_ ?_ ?_ ?_ ?_
    · simp [ControlHandler_step, hh, ReportStatus, published_append, published]
    · simpa [ReportStatus] using hmem
    · have h2 := rankBound_le_two strict (hor hbusy)
      simpa [ReportStatus, hr] using h2
    · have h2 := rankBound_ge_two strict hpast
      simpa [ControlHandler_step, hh, ReportStatus, hr] using h2
    · intro _; simpa [ControlHandler_step, hh, ReportStatus] using hpast
    · intro hb; simp [ControlHandler_step, hh] at hb
    · intro hat; simp [ControlHandler_step, hh] at hat
    · intro st2 hst2; simp [ControlHandler_step, hh] at hst2

theorem Orderly.control (strict : Bool) {s : State} (h : Orderly strict s) (request : DWORD)
    (hstop : request = SERVICE_CONTROL_STOP → acceptsStop (published s.log) = true) :
    Orderly strict
      (if s.handler = HandlerPoint.idle then ControlHandler_enter request s else s) := by
  by_cases hidle : s.handler = HandlerPoint.idle
  · rw [if_pos hidle]
    by_cases hreq : request = SERVICE_CONTROL_STOP
    · have hpast := h.accepted (hstop hreq)
      refine ⟨?_, ?_, ?_, ?_, ?_⟩
      · simpa [ControlHandler_enter, hreq] using h.bounded
      · simpa [ControlHandler_enter, hreq] using h.accepted
      · intro _; simpa [ControlHandler_enter, hreq] using hpast
      · intro hat; simp [ControlHandler_enter, hreq] at hat
      · intro st hst; simp [ControlHandler_enter, hreq] at hst
    · have hsame : ControlHandler_enter request s = s := by
        simp [ControlHandler_enter, hreq]
      rw [hsame]; exact h
  · rw [if_neg hidle]; exact h

theorem Orderly.exec_delivered (strict : Bool) (host : Host) (actions : List Action)
    {s : State} (h : Orderly strict s)
    (hdelivered : deliveredWhenAccepted host actions s = true)
    (hbefore : strict = true → handlerBeforeReturn host actions s = true) :
    Orderly strict (exec host actions s) := by
  induction actions generalizing s with
  | nil => exact h
  | cons a rest ih =>
    cases a with
    | main =>
      refine ih (h.after_main strict host) (by simpa [deliveredWhenAccepted] using hdelivered) ?_
      intro hs
      simpa [handlerBeforeReturn] using hbefore hs
    | handler =>
      have hnow : strict = true →
          s.handler = HandlerPoint.idle ∨ s.pc ≠ ControlPoint.returned := by
        intro hs
        have := hbefore hs
        simp only [handlerBeforeReturn, Bool.and_eq_true, Bool.or_eq_true,
          decide_eq_true_eq] at this
        exact this.1
      refine ih (h.after_handler strict hnow) (by simpa [deliveredWhenAccepted] using hdelivered) ?_
      intro hs
      have := hbefore hs
      simp only [handlerBeforeReturn, Bool.and_eq_true] at this
      exact this.2
    | control request =>
      simp only [deliveredWhenAccepted, Bool.and_eq_true, Bool.or_eq_true,
        decide_eq_true_eq] at hdelivered
      obtain ⟨⟨⟨hlive, hidle⟩, hstop⟩, hrest⟩ := hdelivered
      refine ih (h.control strict request ?_) hrest ?_
      · intro hreq
        rcases hstop with hne | hacc
        · exact absurd hreq hne
        · exact hacc
      · intro hs
        simpa [handlerBeforeReturn] using hbefore hs

theorem Orderly.followsLifecycle {s : State} (h : Orderly true s) :
    FollowsLifecycle (publishedStates s.log) :=
  ⟨h.bounded.1, h.bounded.2.1⟩

theorem Orderly.startsInOrder {s : State} (h : Orderly false s) :
    StartsInOrder (publishedStates s.log) :=
  ⟨h.bounded.1, h.bounded.2.1⟩

theorem publishedCheckPoints_append (xs ys : List ApiCall) :
    publishedCheckPoints (xs ++ ys) = publishedCheckPoints xs ++ publishedCheckPoints ys := by
  simp [publishedCheckPoints, published_append]

theorem Created.after_step (host : Host) (a : Action) {s : State} (h : Created s) :
    Created (step host a s) ∧
      (step host a s).g_ServiceStopEvent = s.g_ServiceStopEvent ∧
      (s.stopEventSignaled = true → (step host a s).stopEventSignaled = true) := by
  obtain ⟨⟨event, hevent⟩, hpast⟩ := h
  cases a with
  | control request =>
    by_cases hidle : s.handler = HandlerPoint.idle <;>
      by_cases hreq : request = SERVICE_CONTROL_STOP <;>
      simp [WindowsService.step, ControlHandler_enter, hidle, hreq, Created, hevent, hpast]
  | handler =>
    cases hh : s.handler <;>
      simp [WindowsService.step, ControlHandler_step, hh, Created, ReportStatus, SetEvent,
        hevent, hpast]
  | main =>
    cases hpc : s.pc <;> simp [hpc, pastInitService] at hpast <;>
      simp [WindowsService.step, ServiceMain_step, hpc, Created, ReportStatus,
        ReportEventToEventViewer, hevent, pastInitService]
    split <;> simp [hevent, hpc, pastInitService]

theorem Signaled.kept_by_step (host : Host) (a : Action) {s : State} (h : Signaled s) :
    Signaled (step host a s) :=
  ⟨(h.1.after_step host a).1, (h.1.after_step host a).2.2 h.2⟩

theorem Signaled.kept_by_exec (host : Host) (actions : List Action) {s : State}
    (h : Signaled s) : Signaled (exec host actions s) := by
  induction actions generalizing s with
  | nil => exact h
  | cons a rest ih => exact ih (h.kept_by_step host a)

theorem Signaled.stopSignaled {s : State} (h : Signaled s) : stopSignaled s = true := by
  obtain ⟨⟨⟨event, hevent⟩, -⟩, hset⟩ := h
  simp [WindowsService.stopSignaled, hevent, hset]

theorem Signaled.of_stopSignaled {s : State} (hcreated : Created s)
    (h : WindowsService.stopSignaled s = true) : Signaled s := by
  obtain ⟨⟨event, hevent⟩, hpast⟩ := hcreated
  refine ⟨⟨⟨event, hevent⟩, hpast⟩, ?_⟩
  simpa [WindowsService.stopSignaled, hevent] using h

theorem Armed.armed_after_step (host : Host) (a : Action) {s : State} (h : Armed s) :
    Armed (step host a s) := by
  obtain ⟨hcreated, hor⟩ := h
  refine ⟨(hcreated.after_step host a).1, ?_⟩
  have hkeep := (hcreated.after_step host a).2.2
  obtain ⟨⟨event, hevent⟩, hpast⟩ := hcreated
  cases a with
  | control request =>
    by_cases hidle : s.handler = HandlerPoint.idle
    · by_cases hreq : request = SERVICE_CONTROL_STOP
      · simp [WindowsService.step, ControlHandler_enter, hidle, hreq, beforeSetEvent]
      · rcases hor with hb | hs
        · simp [beforeSetEvent, hidle] at hb
        · exact Or.inr (hkeep hs)
    · rcases hor with hb | hs
      · left; simpa [WindowsService.step, hidle] using hb
      · exact Or.inr (hkeep hs)
  | main =>
    rcases hor with hb | hs
    · left
      have hsame : (ServiceMain_step host s).handler = s.handler := by
        cases hpc : s.pc <;> simp [ServiceMain_step, hpc, ReportStatus,
          ReportEventToEventViewer, InitService]
        all_goals split <;> simp [ReportEventToEventViewer]
      simpa [WindowsService.step, hsame] using hb
    · exact Or.inr (hkeep hs)
  | handler =>
    cases hh : s.handler with
    | idle => rcases hor with hb | hs
              · simp [beforeSetEvent, hh] at hb
              · exact Or.inr (hkeep hs)
    | atReportStopPending =>
      left; simp [WindowsService.step, ControlHandler_step, hh, ReportStatus, beforeSetEvent]
    | atSetEvent =>
      right; simp [WindowsService.step, ControlHandler_step, hh, SetEvent, hevent]
    | atReadState =>
      rcases hor with hb | hs
      · simp [beforeSetEvent, hh] at hb
      · exact Or.inr (hkeep hs)
    | atReportEcho st =>
      rcases hor with hb | hs
      · simp [beforeSetEvent, hh] at hb
      · exact Or.inr (hkeep hs)

theorem Armed.armed_after_exec (host : Host) (actions : List Action) {s : State}
    (h : Armed s) : Armed (exec host actions s) := by
  induction actions generalizing s with
  | nil => exact h
  | cons a rest ih => exact ih (h.armed_after_step host a)

theorem SecondStop.during_step (host : Host) (a : Action) {s1 s : State} {event : Nat}
    (hevent : s1.g_ServiceStopEvent = HANDLE.object event)
    (ha : a ≠ Action.control SERVICE_CONTROL_STOP) (h : SecondStop s1 s) :
    SecondStop s1 (step host a s) := by
  rcases h with hret | ⟨hpast, hev, hphase⟩
  · left
    cases a with
    | main => simp [WindowsService.step, ServiceMain_step, hret]
    | handler =>
      cases hh : s.handler <;>
        simp [WindowsService.step, ControlHandler_step, hh, ReportStatus, SetEvent, hret]
      split <;> simp [hret]
    | control request =>
      have hreq : request ≠ SERVICE_CONTROL_STOP := fun hr => ha (by rw [hr])
      by_cases hidle : s.handler = HandlerPoint.idle <;>
        simp [WindowsService.step, ControlHandler_enter, hidle, hreq, hret]
  · cases a with
    | control request =>
      have hreq : request ≠ SERVICE_CONTROL_STOP := fun hr => ha (by rw [hr])
      have hsame : step host (Action.control request) s = s := by
        by_cases hidle : s.handler = HandlerPoint.idle <;>
          simp [WindowsService.step, ControlHandler_enter, hidle, hreq]
      rw [hsame]
      exact Or.inr ⟨hpast, hev, hphase⟩
    | handler =>
      right
      have hsev : s.g_ServiceStopEvent = HANDLE.object event := by rw [hev, hevent]
      cases hh : s.handler with
      | idle =>
        have hsame : ControlHandler_step s = s := by simp [ControlHandler_step, hh]
        simp only [WindowsService.step, hsame]
        exact ⟨hpast, hev, hphase⟩
      | atReportStopPending =>
        rw [hh] at hphase
        obtain ⟨hp, hc, hst⟩ := hphase
        refine ⟨?_, ?_, ?_⟩ <;>
          simp [WindowsService.step, ControlHandler_step, hh, ReportStatus, hpast, hev, hp, hc,
            hst, published_append, published, stopPendingStatus]
      | atSetEvent =>
        rw [hh] at hphase
        obtain ⟨hp, hc, hst⟩ := hphase
        refine ⟨?_, ?_, ?_⟩ <;>
          simp [WindowsService.step, ControlHandler_step, hh, SetEvent, hsev, hpast, hp, hc,
            hst, hevent]
      | atReadState =>
        rw [hh] at hphase
        obtain ⟨hp, hc, hst, hyes⟩ := hphase
        refine ⟨?_, ?_, ?_⟩ <;>
          simp [WindowsService.step, ControlHandler_step, hh, hpast, hev, hp, hc, hst, hyes,
            stopPendingStatus]
      | atReportEcho st =>
        rw [hh] at hphase
        obtain ⟨hp, hc, hst, hyes, hcur⟩ := hphase
        subst hcur
        refine ⟨?_, ?_, ?_⟩ <;>
          simp [WindowsService.step, ControlHandler_step, hh, ReportStatus, hpast, hev, hp, hc,
            hst, hyes, published_append, published, stopPendingStatus]
    | main =>
      have hframe : ∀ t : State, t.handler = s.handler →
          published t.log = published s.log →
          t.checkPoint = s.checkPoint → t.g_ServiceStatus = s.g_ServiceStatus →
          t.stopEventSignaled = s.stopEventSignaled →
          t.g_ServiceStopEvent = s.g_ServiceStopEvent → pastRunning t.pc = true →
          SecondStop s1 t := by
        intro t hh hpub hc hst hsig hse hp
        right
        refine ⟨hp, by rw [hse, hev], ?_⟩
        rw [hh, hpub, hc, hst, hsig]
        exact hphase
      cases hpc : s.pc <;> simp [hpc, pastRunning] at hpast
      · cases hsig : stopSignaled s with
        | false =>
          have hsame : WindowsService.step host Action.main s = s := by
            simp [WindowsService.step, ServiceMain_step, hpc, hsig]
          rw [hsame]
          exact Or.inr ⟨by simp [hpc, pastRunning], hev, hphase⟩
        | true =>
          refine hframe _ ?_ ?_ ?_ ?_ ?_ ?_ ?_ <;>
            simp [WindowsService.step, ServiceMain_step, hpc, hsig, pastRunning]
      · refine hframe _ ?_ ?_ ?_ ?_ ?_ ?_ ?_ <;>
          simp [WindowsService.step, ServiceMain_step, hpc, ReportEventToEventViewer,
            pastRunning, published_append, published]
      · left
        simp [WindowsService.step, ServiceMain_step, hpc]
      · left
        simp [WindowsService.step, ServiceMain_step, hpc]

theorem SecondStop.during_exec (host : Host) (actions : List Action) {s1 s : State}
    {event : Nat} (hevent : s1.g_ServiceStopEvent = HANDLE.object event)
    (hno : Action.control SERVICE_CONTROL_STOP ∉ actions) (h : SecondStop s1 s) :
    SecondStop s1 (exec host actions s) := by
  induction actions generalizing s with
  | nil => exact h
  | cons a rest ih =>
    have ha : a ≠ Action.control SERVICE_CONTROL_STOP :=
      fun heq => hno (by rw [heq]; exact List.mem_cons_self _ _)
    exact ih (fun hmem => hno (List.mem_cons_of_mem _ hmem)) (h.during_step host a hevent ha)

theorem reportAll_append (xs ys : List (DWORD × DWORD × DWORD)) (s : State) :
    reportAll (xs ++ ys) s = reportAll ys (reportAll xs s) := by
  induction xs generalizing s with
  | nil => rfl
  | cons c rest ih =>
    obtain ⟨st, e, w⟩ := c
    simp [reportAll, ih]

theorem reportsOf_append (xs ys : List (DWORD × DWORD × DWORD)) (s : State) :
    reportsOf (xs ++ ys) s = reportsOf xs s ++ reportsOf ys (reportAll xs s) := by
  induction xs generalizing s with
  | nil => rfl
  | cons c rest ih =>
    obtain ⟨st, e, w⟩ := c
    simp [reportsOf, reportAll, ih]

theorem reportAll_log (calls : List (DWORD × DWORD × DWORD)) (s : State) :
    (reportAll calls s).log =
      s.log ++ (reportsOf calls s).map (ApiCall.SetServiceStatus s.g_StatusHandle) := by
  induction calls generalizing s with
  | nil => simp [reportAll, reportsOf]
  | cons c rest ih =>
    obtain ⟨st, e, w⟩ := c
    rw [reportAll, ih]
    simp [reportsOf, ReportStatus]

theorem published_map_SetServiceStatus (h : HANDLE) (rs : List SERVICE_STATUS) :
    published (rs.map (ApiCall.SetServiceStatus h)) = rs := by
  induction rs with
  | nil => rfl
  | cons r rest ih => simp [published, ih]

theorem newReports_reportAll (calls : List (DWORD × DWORD × DWORD)) (s : State) :
    newReports s (reportAll calls s) = reportsOf calls s := by
  simp [newReports, reportAll_log, published_append, published_map_SetServiceStatus]

theorem reportsOf_states (calls : List (DWORD × DWORD × DWORD)) (s : State) :
    (reportsOf calls s).map (fun status => status.dwCurrentState)
      = calls.map (fun call => call.1) := by
  induction calls generalizing s with
  | nil => rfl
  | cons c rest ih =>
    obtain ⟨st, e, w⟩ := c
    simp [reportsOf, ih, ReportStatus]

theorem reportsOf_steady (calls : List (DWORD × DWORD × DWORD)) (s : State) :
    ∀ status ∈ reportsOf calls s,
      status.dwCurrentState = SERVICE_RUNNING ∨ status.dwCurrentState = SERVICE_STOPPED →
        status.dwCheckPoint = 0 := by
  induction calls generalizing s with
  | nil => simp [reportsOf]
  | cons c rest ih =>
    obtain ⟨st, e, w⟩ := c
    intro status hmem
    rw [reportsOf, List.mem_cons] at hmem
    rcases hmem with rfl | hmem
    · intro hstate
      simp only [ReportStatus] at hstate ⊢
      rcases hstate with h | h <;> simp [h]
    · exact ih _ status hmem

theorem reportsOf_chain (calls : List (DWORD × DWORD × DWORD)) (s : State) :
    (reportsOf calls s).Chain' CheckPointGrowsBelowWrap := by
  induction calls generalizing s with
  | nil => simp [reportsOf]
  | cons c rest ih =>
    obtain ⟨st, e, w⟩ := c
    rw [reportsOf, List.chain'_cons']
    refine ⟨?_, ih _⟩
    intro later hlater
    cases rest with
    | nil => simp [reportsOf] at hlater
    | cons c2 rest2 =>
      obtain ⟨st2, e2, w2⟩ := c2
      simp only [reportsOf, List.head?_cons, Option.mem_def, Option.some.injEq] at hlater
      subst hlater
      intro hp1 hp2 hbelow
      have h1 : st = SERVICE_START_PENDING ∨ st = SERVICE_STOP_PENDING := by
        simpa [ReportStatus, isPending] using hp1
      have h2 : st2 = SERVICE_START_PENDING ∨ st2 = SERVICE_STOP_PENDING := by
        simpa [ReportStatus, isPending] using hp2
      have hb : s.checkPoint < 4294967295 := by
        rcases h1 with h | h <;> simpa [ReportStatus, h] using hbelow
      have hmod : (s.checkPoint + 1) % 4294967296 = s.checkPoint + 1 :=
        Nat.mod_eq_of_lt (Nat.succ_lt_succ hb)
      rcases h1 with h | h <;> rcases h2 with h' | h' <;>
        simp [ReportStatus, h, h', hmod]

theorem reportAll_replicate_checkPoint (n : Nat) (s : State) (hs : s.checkPoint < DWORD_RANGE) :
    (reportAll (List.replicate n (SERVICE_STOP_PENDING, NO_ERROR, 0)) s).checkPoint
      = (s.checkPoint + n) % DWORD_RANGE := by
  induction n generalizing s with
  | zero => simpa [reportAll] using (Nat.mod_eq_of_lt hs).symm
  | succ n ih =>
    rw [List.replicate_succ, reportAll, ih _ (by simpa [ReportStatus] using Nat.mod_lt _ (by decide))]
    simp only [ReportStatus]
    simp only [DWORD, DWORD_RANGE] at *
    simp
    omega

theorem not_chain_at_wrap (n : Nat) (s : State) (hs : s.checkPoint < DWORD_RANGE)
    (hlast : (s.checkPoint + n) % DWORD_RANGE = 4294967295) :
    ¬ (reportsOf (List.replicate (n + 2) (SERVICE_STOP_PENDING, NO_ERROR, 0)) s).Chain'
        CheckPointGrows := by
  intro hchain
  rw [List.replicate_add, reportsOf_append] at hchain
  have htail := hchain.right_of_append
  have hcp := reportAll_replicate_checkPoint n s hs
  rw [hlast] at hcp
  generalize reportAll (List.replicate n (SERVICE_STOP_PENDING, NO_ERROR, 0)) s = mid
    at htail hcp
  simp only [List.replicate, reportsOf, List.chain'_cons, CheckPointGrows, ReportStatus, hcp]
    at htail
  have hlt := htail.1 (Or.inr rfl) (Or.inr rfl)
  simp at hlt

theorem waitForStop_leaves (reg : Registry) (polls fuel k current st : Nat) (out : List Print)
    (hpending : ∀ i, i < polls → reg.QueryServiceStatus (k + i) = some SERVICE_STOP_PENDING)
    (hleft : reg.QueryServiceStatus (k + polls) = some st) (hne : st ≠ SERVICE_STOP_PENDING)
    (hfuel : polls < fuel) :
    waitForStop reg fuel k current out
      = some (st, out ++ List.replicate polls (⟨".", none⟩ : Print)) := by
  induction polls generalizing fuel k current out with
  | zero =>
    obtain ⟨fuel, rfl⟩ : ∃ n, fuel = n + 1 := ⟨fuel - 1, by omega⟩
    rw [Nat.add_zero] at hleft
    simp [waitForStop, hleft, hne]
  | succ n ih =>
    obtain ⟨fuel, rfl⟩ : ∃ m, fuel = m + 1 := ⟨fuel - 1, by omega⟩
    have h0 : reg.QueryServiceStatus k = some SERVICE_STOP_PENDING := by
      simpa using hpending 0 (Nat.succ_pos n)
    have hrest : ∀ i, i < n → reg.QueryServiceStatus (k + 1 + i) = some SERVICE_STOP_PENDING := by
      intro i hi
      have := hpending (i + 1) (by omega)
      rwa [show k + (i + 1) = k + 1 + i by omega] at this
    have hleft' : reg.QueryServiceStatus (k + 1 + n) = some st := by
      rwa [show k + (n + 1) = k + 1 + n by omega] at hleft
    simp only [waitForStop, h0, if_true]
    rw [ih fuel (k + 1) SERVICE_STOP_PENDING _ hrest hleft' (by omega)]
    simp [List.replicate_succ]

theorem lifecycleRank_injOn {a b : DWORD} (ha : a ∈ lifecycle) (hb : b ∈ lifecycle)
    (h : lifecycleRank a = lifecycleRank b) : a = b := by
  simp only [lifecycle, List.mem_cons, List.mem_singleton, List.not_mem_nil, or_false] at ha hb
  rcases ha with rfl | rfl | rfl | rfl <;> rcases hb with rfl | rfl | rfl | rfl <;>
    first | rfl | (exact absurd h (by decide))

theorem chain'_both {α : Type} {R S : α → α → Prop} {l : List α}
    (hR : l.Chain' R) (hS : l.Chain' S) : l.Chain' (fun a b => R a b ∧ S a b) := by
  induction l with
  | nil => exact List.chain'_nil
  | cons a rest ih =>
    rw [List.chain'_cons'] at hR hS ⊢
    exact ⟨fun b hb => ⟨hR.1 b hb, hS.1 b hb⟩, ih hR.2 hS.2⟩

/-- Once repeated reports of a state are counted once, published states that
follow the lifecycle are a subsequence of the lifecycle. -/
theorem FollowsLifecycle.destutter_sublist {states : List DWORD} (h : FollowsLifecycle states) :
    (states.destutter (fun a b => a ≠ b)).Sublist lifecycle := by
  obtain ⟨hall, hpair⟩ := h
  have hsub : (states.destutter (fun a b => a ≠ b)).Sublist states := List.destutter_sublist _ _
  have hmem : ∀ st ∈ states.destutter (fun a b => a ≠ b), st ∈ lifecycle :=
    fun st hst => hall st (hsub.subset hst)
  have hle : (states.destutter (fun a b => a ≠ b)).Pairwise
      (fun a b => lifecycleRank a ≤ lifecycleRank b) := hpair.sublist hsub
  have hne : (states.destutter (fun a b => a ≠ b)).Chain' (fun a b => a ≠ b) :=
    List.destutter_is_chain' _ _
  have hlt : (states.destutter (fun a b => a ≠ b)).Chain'
      (fun a b => lifecycleRank a < lifecycleRank b) := by
    have hboth := List.Chain'.iff_mem.1 (chain'_both hle.chain' hne)
    refine hboth.imp ?_
    rintro a b ⟨ha, hb, hab, hneq⟩
    exact lt_of_le_of_ne hab (fun heq => hneq (lifecycleRank_injOn (hmem a ha) (hmem b hb) heq))
  have hsorted : (states.destutter (fun a b => a ≠ b)).Pairwise
      (fun a b => lifecycleRank a < lifecycleRank b) := by
    haveI : IsTrans DWORD (fun a b => lifecycleRank a < lifecycleRank b) :=
      ⟨fun _ _ _ h1 h2 => lt_trans h1 h2⟩
    exact List.chain'_iff_pairwise.1 hlt
  have hnodup : (states.destutter (fun a b => a ≠ b)).Nodup :=
    hsorted.imp (fun {a b} hab heq => by rw [heq] at hab; exact lt_irrefl _ hab)
  haveI : IsAntisymm DWORD (fun a b => lifecycleRank a < lifecycleRank b) :=
    ⟨fun _ _ h1 h2 => absurd h1 (lt_asymm h2)⟩
  exact List.sublist_of_subperm_of_sorted (hnodup.subperm hmem) hsorted (by decide)

/-! ## C1: the order of the published states -/

/-- C1 (as the code has it): in every run, with the statements of `ServiceMain`
and of the handler interleaved in any way, in which every control request
arrives while the handler is live and every stop request while the last
published status accepts the stop control (the start-pending status accepts
none), the published states are among start-pending, running, stop-pending and
stopped, and neither start-pending nor running is published after stop-pending
or stopped.  When moreover every call of the handler is over before
`ServiceMain` returns, no publish goes backward at all: repeated reports of a
state counted once, the published states are a subsequence of start-pending,
running, stop-pending, stopped. -/
theorem published_states_follow_lifecycle (host : Host) (eventSource : Nat)
    (actions : List Action)
    (hdelivered : deliveredWhenAccepted host actions (serviceStart eventSource) = true) :
    StartsInOrder (publishedStates (exec host actions (serviceStart eventSource)).log) ∧
    (handlerBeforeReturn host actions (serviceStart eventSource) = true →
      FollowsLifecycle (publishedStates (exec host actions (serviceStart eventSource)).log) ∧
      ((publishedStates (exec host actions (serviceStart eventSource)).log).destutter
        (fun a b => a ≠ b)).Sublist lifecycle) := by
  refine ⟨?_, ?_⟩
  · exact ((Orderly.start false eventSource).exec_delivered false host actions hdelivered
      (fun hs => absurd hs (by decide))).startsInOrder
  · intro hbefore
    have hfollows : FollowsLifecycle
        (publishedStates (exec host actions (serviceStart eventSource)).log) :=
      ((Orderly.start true eventSource).exec_delivered true host actions hdelivered
        (fun _ => hbefore)).followsLifecycle
    exact ⟨hfollows, hfollows.destutter_sublist⟩

/-- C1 on the sample host, in a run where `ServiceMain` leaves the worker loop
while the call of the handler is between `SetEvent` and its second report. -/
theorem published_states_follow_lifecycle_witness :
    deliveredWhenAccepted okHost stopInterleaved (serviceStart 0) = true ∧
    handlerBeforeReturn okHost stopInterleaved (serviceStart 0) = true ∧
    StartsInOrder (publishedStates (exec okHost stopInterleaved (serviceStart 0)).log) ∧
    FollowsLifecycle (publishedStates (exec okHost stopInterleaved (serviceStart 0)).log) ∧
    publishedStates (exec okHost stopInterleaved (serviceStart 0)).log =
      [SERVICE_START_PENDING, SERVICE_RUNNING, SERVICE_STOP_PENDING, SERVICE_STOP_PENDING,
        SERVICE_STOPPED] :=
  have h := published_states_follow_lifecycle okHost 0 stopInterleaved (by decide)
  ⟨by decide, by decide, h.1, (h.2 (by decide)).1, by decide⟩

/-- C1 fails as stated: on the sample host, a stop request that arrives after
the handler is registered but before `InitService` makes the published states
start-pending, stop-pending, stop-pending, running: running comes after
stop-pending, and the states are no subsequence of the lifecycle, even with
the repeated stop-pending counted once. -/
theorem stop_before_running_goes_backward :
    deliveredDuringRun okHost stopBeforeRunning (serviceStart 0) = true ∧
    publishedStates (exec okHost stopBeforeRunning (serviceStart 0)).log =
      [SERVICE_START_PENDING, SERVICE_STOP_PENDING, SERVICE_STOP_PENDING, SERVICE_RUNNING] ∧
    ¬ FollowsLifecycle (publishedStates (exec okHost stopBeforeRunning (serviceStart 0)).log) ∧
    ¬ ((publishedStates (exec okHost stopBeforeRunning (serviceStart 0)).log).destutter
      (fun a b => a ≠ b)).Sublist lifecycle := by
  have hstates : publishedStates (exec okHost stopBeforeRunning (serviceStart 0)).log =
      [2, 3, 3, 4] := by decide
  refine ⟨by decide, by decide, ?_, ?_⟩
  · rw [hstates]
    intro h
    have hpair := h.2
    simp [lifecycleRank, lifecycle] at hpair
  · rw [hstates]
    decide

/-- The source has no lock between `ServiceMain` and the handler: in the run
where `ServiceMain` makes its stopped report while the call of the handler
stands between the reading of the current state and its second report, the
stop request arrives while accepted and the published pairs of state and check
point end with stopped, then stop-pending. -/
theorem echo_after_stopped_report :
    deliveredWhenAccepted okHost stopEchoLate (serviceStart 0) = true ∧
    handlerBeforeReturn okHost stopEchoLate (serviceStart 0) = false ∧
    publishedCheckPoints (exec okHost stopEchoLate (serviceStart 0)).log =
      [(SERVICE_START_PENDING, 1), (SERVICE_RUNNING, 0), (SERVICE_STOP_PENDING, 2),
        (SERVICE_STOPPED, 0), (SERVICE_STOP_PENDING, 3)] := by
  decide

/-! ## C2: check points -/

/-- C2 (as the code has it): for every sequence of `ReportStatus` calls, from
every state, the calls publish one status each, in order, with the states
asked for; the check point of every report in `SERVICE_RUNNING` or
`SERVICE_STOPPED` is `0`; and of two consecutive reports in pending states the
later has the greater check point whenever the earlier one is below
`4294967295`, the last value of the 32-bit counter. -/
theorem ReportStatus_checkPoints (calls : List (DWORD × DWORD × DWORD)) (s : State) :
    (newReports s (reportAll calls s)).map (fun status => status.dwCurrentState)
        = calls.map (fun call => call.1) ∧
    (∀ status ∈ newReports s (reportAll calls s),
      status.dwCurrentState = SERVICE_RUNNING ∨ status.dwCurrentState = SERVICE_STOPPED →
        status.dwCheckPoint = 0) ∧
    (newReports s (reportAll calls s)).Chain' CheckPointGrowsBelowWrap := by
  rw [newReports_reportAll]
  exact ⟨reportsOf_states calls s, reportsOf_steady calls s, reportsOf_chain calls s⟩

/-- C2 fails as stated: from the globals as the source declares them, after
`4294967294` stop-pending reports the counter stands at the last value of a
`DWORD`; the next two stop-pending reports carry the check points `4294967295`
and `0`, so the check points of `4294967296` consecutive stop-pending reports
do not grow throughout. -/
theorem checkPoint_wraps :
    ¬ (newReports (serviceStart 0)
        (reportAll (List.replicate 4294967296 (SERVICE_STOP_PENDING, NO_ERROR, 0))
          (serviceStart 0))).Chain' CheckPointGrows := by
  rw [newReports_reportAll]
  exact not_chain_at_wrap 4294967294 (serviceStart 0) (by decide) rfl

/-! ## C3: one stop request while running -/

/-- C4 (as the code has it): for every state of the process, an interrogate
request leaves the whole state unchanged, the log of host calls included: the
current state, the status record and the stop event are as before, and no
status is published. -/
theorem ControlHandler_interrogate (s : State) :
    ControlHandler SERVICE_CONTROL_INTERROGATE s = s ∧
      newReports s (ControlHandler SERVICE_CONTROL_INTERROGATE s) = [] := by
  simp [ControlHandler, newReports]

/-- C4 fails as stated: in the running state an interrogate request publishes
no status at all, so not exactly one equal to the last published one. -/
theorem interrogate_publishes_nothing :
    lastPublished runningState ≠ none ∧
      ¬ ∃ status, lastPublished runningState = some status ∧
        newReports runningState (ControlHandler SERVICE_CONTROL_INTERROGATE runningState)
          = [status] := by
  constructor
  · decide
  · rintro ⟨status, -, h⟩
    simp [ControlHandler, newReports] at h

/-! ## C5: the stop event -/

/-- C5 (as the code has it): once `InitService` has created the stop event,
the event, once signalled, stays signalled through every run, with the
statements of `ServiceMain` and of the handler interleaved in any way; and
after a stop request, the event is signalled whenever the handler is out of a
call.  A second stop request that arrives in the stop-pending state, and whose
call is over before `ServiceMain` returns, leaves the event signalled and the
state stop-pending, but it is observable: it publishes two further
stop-pending reports, with the next two check points of the counter. -/
theorem stop_event_stays_signaled (host : Host) (actions during : List Action) (s : State)
    (hcreated : ∃ event, s.g_ServiceStopEvent = HANDLE.object event)
    (hpast : pastInitService s.pc = true) :
    (stopSignaled s = true → stopSignaled (exec host actions s) = true) ∧
    (s.handler = HandlerPoint.idle →
      (exec host (Action.control SERVICE_CONTROL_STOP :: actions) s).handler
          = HandlerPoint.idle →
        stopSignaled (exec host (Action.control SERVICE_CONTROL_STOP :: actions) s) = true) ∧
    (s.handler = HandlerPoint.idle →
      s.g_ServiceStatus.dwCurrentState = SERVICE_STOP_PENDING →
      pastRunning s.pc = true →
      Action.control SERVICE_CONTROL_STOP ∉ during →
      (exec host (Action.control SERVICE_CONTROL_STOP :: during) s).handler
          = HandlerPoint.idle →
      (exec host (Action.control SERVICE_CONTROL_STOP :: during) s).pc
          ≠ ControlPoint.returned →
        stopSignaled (exec host (Action.control SERVICE_CONTROL_STOP :: during) s) = true ∧
        (exec host (Action.control SERVICE_CONTROL_STOP :: during)
            s).g_ServiceStatus.dwCurrentState = SERVICE_STOP_PENDING ∧
        (newReports s (exec host (Action.control SERVICE_CONTROL_STOP :: during) s)).map
            (fun status => (status.dwCurrentState, status.dwCheckPoint))
          = [(SERVICE_STOP_PENDING, s.checkPoint),
              (SERVICE_STOP_PENDING, (s.checkPoint + 1) % DWORD_RANGE)]) := by
  obtain ⟨event, hevent⟩ := hcreated
  have hc : Created s := ⟨⟨event, hevent⟩, hpast⟩
  have hentered : s.handler = HandlerPoint.idle →
      step host (Action.control SERVICE_CONTROL_STOP) s =
        { s with handler := HandlerPoint.atReportStopPending } := by
    intro hidle
    simp [step, ControlHandler_enter, hidle]
  refine ⟨?_, ?_, ?_⟩
  · intro hsig
    exact ((Signaled.of_stopSignaled hc hsig).kept_by_exec host actions).stopSignaled
  · intro hidle hdone
    have harmed : Armed (step host (Action.control SERVICE_CONTROL_STOP) s) := by
      rw [hentered hidle]
      exact ⟨⟨⟨event, hevent⟩, hpast⟩, Or.inl (Or.inl rfl)⟩
    obtain ⟨hcreated2, hor⟩ := harmed.armed_after_exec host actions
    have hflag : (exec host (Action.control SERVICE_CONTROL_STOP :: actions)
        s).stopEventSignaled = true := by
      rcases hor with hb | hs
      · rcases hb with hb | hb <;>
          exact absurd (hdone.symm.trans hb) (by simp)
      · exact hs
    exact (show Signaled _ from ⟨hcreated2, hflag⟩).stopSignaled
  · intro hidle hcur hrunning hno hdone hnot
    have hsecond : SecondStop s (step host (Action.control SERVICE_CONTROL_STOP) s) := by
      rw [hentered hidle]
      exact Or.inr ⟨hrunning, rfl, rfl, rfl, rfl⟩
    have hend := hsecond.during_exec host during hevent hno
    rcases hend with hret | ⟨-, hev, hphase⟩
    · exact absurd hret hnot
    · have hdone2 : (exec host during (step host (Action.control SERVICE_CONTROL_STOP)
          s)).handler = HandlerPoint.idle := hdone
      rw [hdone2] at hphase
      obtain ⟨hp, hst, hyes⟩ := hphase
      refine ⟨?_, ?_, ?_⟩
      · show stopSignaled (exec host during (step host (Action.control SERVICE_CONTROL_STOP)
          s)) = true
        simp [stopSignaled, hev, hevent, hyes]
      · show (exec host during (step host (Action.control SERVICE_CONTROL_STOP)
          s)).g_ServiceStatus.dwCurrentState = SERVICE_STOP_PENDING
        rw [hst]; rfl
      · show (newReports s (exec host during (step host
          (Action.control SERVICE_CONTROL_STOP) s))).map _ = _
        simp [newReports, hp, stopPendingStatus]

/-- C5 in the stop-pending state of the sample host, with a second stop
request whose call is interleaved with the last steps of `ServiceMain` before
its stopped report. -/
theorem stop_event_stays_signaled_witness :
    (∃ event, stopPendingState.g_ServiceStopEvent = HANDLE.object event) ∧
    pastInitService stopPendingState.pc = true ∧
    stopSignaled (exec okHost secondStopInterleaved stopPendingState) = true ∧
    (newReports stopPendingState (exec okHost secondStopInterleaved stopPendingState)).map
        (fun status => (status.dwCurrentState, status.dwCheckPoint))
      = [(SERVICE_STOP_PENDING, 4), (SERVICE_STOP_PENDING, 5)] :=
  have h := (stop_event_stays_signaled okHost [] secondStopInterleaved.tail stopPendingState
    ⟨2, by decide⟩ (by decide)).2.2 (by decide) (by decide) (by decide) (by decide)
    (by decide) (by decide)
  ⟨⟨2, by decide⟩, by decide, h.1, h.2.2⟩

/-- C5 fails as stated: in the stop-pending state, with the stop event
signalled, a second stop request whose call runs with no statement of
`ServiceMain` in between changes the state of the process and the calls seen
by the service manager: two more reports are published and the check point of
the status goes from 3 to 5. -/
theorem second_stop_is_observable :
    stopPendingState.g_ServiceStatus.dwCurrentState = SERVICE_STOP_PENDING ∧
    stopSignaled stopPendingState = true ∧
    exec okHost stopCall stopPendingState ≠ stopPendingState ∧
    (newReports stopPendingState (exec okHost stopCall stopPendingState)).length = 2 ∧
    stopPendingState.g_ServiceStatus.dwCheckPoint = 3 ∧
    (exec okHost stopCall stopPendingState).g_ServiceStatus.dwCheckPoint = 5 := by
  decide

/-! ## C6: accepted controls -/

/-- C6: for every exit code and wait hint, and from every state of the
process, `ReportStatus` hands exactly one status to the service manager; for
`SERVICE_START_PENDING` its accepted controls are empty (`0`), and for
`SERVICE_RUNNING` they are exactly `SERVICE_ACCEPT_STOP`. -/
theorem ReportStatus_controlsAccepted (s : State) (win32ExitCode waitHint : DWORD) :
    (newReports s (ReportStatus SERVICE_START_PENDING win32ExitCode waitHint s)).map
        (fun status => (status.dwCurrentState, status.dwControlsAccepted,
          status.dwWin32ExitCode, status.dwWaitHint))
      = [(SERVICE_START_PENDING, 0, win32ExitCode, waitHint)] ∧
    (newReports s (ReportStatus SERVICE_RUNNING win32ExitCode waitHint s)).map
        (fun status => (status.dwCurrentState, status.dwControlsAccepted,
          status.dwWin32ExitCode, status.dwWaitHint))
      = [(SERVICE_RUNNING, SERVICE_ACCEPT_STOP, win32ExitCode, waitHint)] := by
  constructor <;>
    simp [newReports, ReportStatus, published_append, published]

/-! ## C7: failure of the initialization -/

/-- C7: when the registration of the handler succeeds and `InitService`
returns non-zero, `ServiceMain` returns after five calls; its calls to the
host are, in order, the start-pending status, the error event "Service
initialization failed." and the stopped status, so the published states are
exactly start-pending then stopped; and it never stands at the worker loop. -/
theorem ServiceMain_init_failure (host : Host) (eventSource : Nat)
    (hreg : HANDLE.ofResult host.RegisterServiceCtrlHandler ≠ HANDLE.NULL)
    (hinit : ∀ s, (InitService host s).1 ≠ 0) :
    (exec host (List.replicate 5 Action.main) (serviceStart eventSource)).pc
        = ControlPoint.returned ∧
    (exec host (List.replicate 5 Action.main) (serviceStart eventSource)).log =
      [ApiCall.SetServiceStatus (HANDLE.ofResult host.RegisterServiceCtrlHandler)
          ⟨SERVICE_WIN32_OWN_PROCESS, SERVICE_START_PENDING, 0, NO_ERROR, 0, 1, 3000⟩,
        ApiCall.ReportEvent (HANDLE.object eventSource) EVENTLOG_ERROR_TYPE
          "Service initialization failed.",
        ApiCall.SetServiceStatus (HANDLE.ofResult host.RegisterServiceCtrlHandler)
          ⟨SERVICE_WIN32_OWN_PROCESS, SERVICE_STOPPED, SERVICE_ACCEPT_STOP, NO_ERROR, 0, 0, 0⟩] ∧
    publishedStates (exec host (List.replicate 5 Action.main) (serviceStart eventSource)).log
        = [SERVICE_START_PENDING, SERVICE_STOPPED] ∧
    ∀ n, (exec host (List.replicate n Action.main) (serviceStart eventSource)).pc
        ≠ ControlPoint.atWorkerLoop ∧
      (5 ≤ n → exec host (List.replicate n Action.main) (serviceStart eventSource)
        = exec host (List.replicate 5 Action.main) (serviceStart eventSource)) := by
  obtain ⟨reg, create⟩ := host
  cases create with
  | some event => exact absurd (by simp [InitService, HANDLE.ofResult]) (hinit (serviceStart 0))
  | none =>
    cases reg with
    | none => exact absurd rfl hreg
    | some handler =>
      have h5 : (exec ⟨some handler, none⟩ (List.replicate 5 Action.main)
          (serviceStart eventSource)).pc = ControlPoint.returned := by
        simp [List.replicate, exec, step, ServiceMain_step, serviceStart, ReportStatus,
          InitService, ReportEventToEventViewer, HANDLE.ofResult]
      refine ⟨h5, ?_, ?_, ?_⟩
      · simp [List.replicate, exec, step, ServiceMain_step, serviceStart, ReportStatus,
          InitService, ReportEventToEventViewer, HANDLE.ofResult]
      · simp [List.replicate, exec, step, ServiceMain_step, serviceStart, ReportStatus,
          InitService, ReportEventToEventViewer, HANDLE.ofResult, publishedStates, published]
      · intro n
        rcases n with _ | _ | _ | _ | _ | n
        · simp [List.replicate, exec, step, ServiceMain_step, serviceStart]
        · simp [List.replicate, exec, step, ServiceMain_step, serviceStart, HANDLE.ofResult]
        · simp [List.replicate, exec, step, ServiceMain_step, serviceStart, ReportStatus,
            HANDLE.ofResult]
        · simp [List.replicate, exec, step, ServiceMain_step, serviceStart, ReportStatus,
            InitService, HANDLE.ofResult]
        · simp [List.replicate, exec, step, ServiceMain_step, serviceStart, ReportStatus,
            InitService, ReportEventToEventViewer, HANDLE.ofResult]
        · have hsplit : List.replicate (n + 1 + 1 + 1 + 1 + 1) Action.main =
              List.replicate 5 Action.main ++ List.replicate n Action.main := by
            rw [← List.replicate_add]
            congr 1
            omega
          rw [hsplit, exec_append, exec_returned _ n _ h5]
          exact ⟨by rw [h5]; decide, fun _ => rfl⟩

/-- C7 on a host where the registration succeeds and the creation of the stop
event fails, so that `InitService` returns `-1`. -/
theorem ServiceMain_init_failure_witness :
    HANDLE.ofResult (Host.mk (some 1) none).RegisterServiceCtrlHandler ≠ HANDLE.NULL ∧
    (∀ s, (InitService ⟨some 1, none⟩ s).1 ≠ 0) ∧
    (exec ⟨some 1, none⟩ (List.replicate 5 Action.main) (serviceStart 0)).pc
        = ControlPoint.returned ∧
    publishedStates (exec ⟨some 1, none⟩ (List.replicate 5 Action.main) (serviceStart 0)).log
        = [SERVICE_START_PENDING, SERVICE_STOPPED] :=
  have hreg : HANDLE.ofResult (Host.mk (some 1) none).RegisterServiceCtrlHandler ≠ HANDLE.NULL := by
    decide
  have hinit : ∀ s, (InitService ⟨some 1, none⟩ s).1 ≠ 0 := fun s => by
    simp [InitService, HANDLE.ofResult]
  have h := ServiceMain_init_failure ⟨some 1, none⟩ 0 hreg hinit
  ⟨hreg, hinit, h.1, h.2.2.1⟩

/-! ## C8: uninstalling a service that does not stop -/

/-- C8 (as the code has it): when the service manager opens, the service
entry exists, the service takes the stop control, answers `polls` queries
with `SERVICE_STOP_PENDING` and then is in a state other than
`SERVICE_STOPPED`, `UninstallService` returns as soon as the fuel covers the
polls; it prints "Service could not be stopped." and goes on to delete the
entry: its exit code is `0` when `DeleteService` succeeds and `-1` only when
`DeleteService` fails. -/
theorem UninstallService_could_not_stop (reg : Registry) (polls fuel : Nat) (st0 st : DWORD)
    (hmanager : reg.OpenSCManager ≠ none) (hentry : reg.OpenService ≠ none)
    (hcontrol : reg.ControlService = some st0)
    (hpending : ∀ i, i < polls → reg.QueryServiceStatus i = some SERVICE_STOP_PENDING)
    (hleft : reg.QueryServiceStatus polls = some st)
    (hnotPending : st ≠ SERVICE_STOP_PENDING) (hnotStopped : st ≠ SERVICE_STOPPED)
    (hfuel : polls < fuel) :
    UninstallService reg fuel =
      some (if reg.DeleteService then 0 else -1,
        [⟨"Stopping service...\n", none⟩] ++ List.replicate polls (⟨".", none⟩ : Print) ++
          [⟨"\nService could not be stopped.\n", none⟩] ++
            [if reg.DeleteService then ⟨"Service uninstalled successfully.\n", none⟩
              else ⟨"DeleteService failed, error: %d\n", some reg.GetLastError⟩]) := by
  obtain ⟨manager, hm⟩ := Option.ne_none_iff_exists'.1 hmanager
  obtain ⟨entry, he⟩ := Option.ne_none_iff_exists'.1 hentry
  have hwait := waitForStop_leaves reg polls fuel 0 st0 st [⟨"Stopping service...\n", none⟩]
    (by simpa using hpending) (by simpa using hleft) hnotPending hfuel
  cases hdel : reg.DeleteService <;>
    simp [UninstallService, hm, he, hcontrol, hwait, hnotStopped, hdel, HANDLE.ofResult]

/-- C8 on the sample registry: two stop-pending answers, then running. -/
theorem UninstallService_could_not_stop_witness :
    UninstallService stuckService 3 =
      some (0,
        [⟨"Stopping service...\n", none⟩, ⟨".", none⟩, ⟨".", none⟩,
          ⟨"\nService could not be stopped.\n", none⟩,
          ⟨"Service uninstalled successfully.\n", none⟩]) :=
  UninstallService_could_not_stop stuckService 2 3 SERVICE_STOP_PENDING SERVICE_RUNNING
    (by decide) (by decide) rfl (by decide) rfl (by decide) (by decide) (by decide)

/-- C8 fails as stated: on the sample registry the service takes the stop
control and leaves stop-pending for running, not stopped, and
`UninstallService` exits with `0`, not with `-1`. -/
theorem uninstall_succeeds_when_stop_failed :
    stuckService.OpenSCManager ≠ none ∧ stuckService.OpenService ≠ none ∧
    stuckService.ControlService = some SERVICE_STOP_PENDING ∧
    stuckService.QueryServiceStatus 2 = some SERVICE_RUNNING ∧
    (UninstallService stuckService 3).map Prod.fst = some 0 ∧
    (UninstallService stuckService 3).map Prod.fst ≠ some (-1) := by
  decide

/-! ## C9: the commands of the entry point -/

/-- C9: the entry point treats `start` and `stop` as unknown commands: for
every host and program path it prints "Invalid command." and exits with `-1`,
although the header notes and the help text offer both commands. -/
theorem tmain_start_stop_invalid (reg : Registry) (fuel : Nat) (program : String) :
    _tmain reg fuel [program, "start"] = some (-1, [⟨"Invalid command.\n", none⟩]) ∧
    _tmain reg fuel [program, "stop"] = some (-1, [⟨"Invalid command.\n", none⟩]) := by
  constructor <;> simp [_tmain]

/-! ## C10: the wait hint of the stop-pending report -/

/-- C10 (as the code has it): from every state, a stop request publishes two
`SERVICE_STOP_PENDING` statuses, both with wait hint `0`. -/
theorem ControlHandler_stop_waitHint (s : State) :
    (newReports s (ControlHandler SERVICE_CONTROL_STOP s)).map
        (fun status => (status.dwCurrentState, status.dwWaitHint))
      = [(SERVICE_STOP_PENDING, 0), (SERVICE_STOP_PENDING, 0)] := by
  simp [newReports, ControlHandler_stop, published_append, published, stopPendingStatus]

/-- C10 fails as stated: in the running state, the stop-pending status that a
stop request publishes has a wait hint below the 1000 ms of a worker pass. -/
theorem stop_waitHint_below_poll :
    ∃ status ∈ newReports runningState (ControlHandler SERVICE_CONTROL_STOP runningState),
      status.dwCurrentState = SERVICE_STOP_PENDING ∧ status.dwWaitHint < 1000 := by
  decide

end WindowsService
